import Mathlib

/-!
Verification of the route/schedule optimization core of the
ML_Transport_Accra repository (`scripts/route_optimizer.py`,
`scripts/schedule_optimizer.py`) against its specification.

Floating point values are idealized as exact rationals (`ℚ`) or reals (`ℝ`);
Python `int(...)` truncation toward zero is modelled by `pyInt`, and
Python `round(x, 2)` (round half to even at two decimals) by `round2`.
-/

set_option autoImplicit false

namespace MLTransportAccra

open Real

/-- Earth mean radius in kilometers, the constant of the great-circle formula. -/
noncomputable def earth_radius_km : ℝ := 6371

/-- Modelled from the spec: the code calls `geopy.distance.geodesic(...).kilometers`,
an external library routine not in the sources; the spec (§4.1) and the code's own
docstring for `calculate_distance_matrix` describe it as the great-circle
(haversine) distance in kilometers between two (latitude, longitude) points in
degrees. -/
noncomputable def haversine_km (a b : ℝ × ℝ) : ℝ :=
  2 * earth_radius_km *
    arcsin (Real.sqrt (sin ((b.1 * π / 180 - a.1 * π / 180) / 2) ^ 2 +
      cos (a.1 * π / 180) * cos (b.1 * π / 180) *
        sin ((b.2 * π / 180 - a.2 * π / 180) / 2) ^ 2))

/-- `RouteOptimizer.calculate_distance_matrix`: an `n × n` matrix initialized to
zeros, with entry `(i, j)` for `i ≠ j` set to the pairwise distance between the
coordinates of stops `i` and `j`. -/
noncomputable def calculate_distance_matrix (stops : List (ℝ × ℝ)) : ℕ → ℕ → ℝ :=
  fun i j => if i = j then 0 else haversine_km (stops.getD i (0, 0)) (stops.getD j (0, 0))

theorem haversine_km_comm (a b : ℝ × ℝ) : haversine_km a b = haversine_km b a := by
  have h : ∀ x y : ℝ, sin ((x - y) / 2) ^ 2 = sin ((y - x) / 2) ^ 2 := fun x y => by
    rw [show (x - y) / 2 = -((y - x) / 2) by ring, Real.sin_neg, neg_sq]
  unfold haversine_km
  rw [h (b.1 * π / 180) (a.1 * π / 180), h (b.2 * π / 180) (a.2 * π / 180),
    mul_comm (cos (a.1 * π / 180)) (cos (b.1 * π / 180))]

theorem haversine_km_self (a : ℝ × ℝ) : haversine_km a a = 0 := by
  unfold haversine_km
  simp

/-- C8: for every stop list, `calculate_distance_matrix` is symmetric with a zero
diagonal, and the underlying point distance satisfies `distance(a,b) = distance(b,a)`
and `distance(a,a) = 0` for every pair of points. -/
theorem C8_distance_matrix_symmetric_zero_diagonal (stops : List (ℝ × ℝ)) :
    (∀ i j, calculate_distance_matrix stops i j = calculate_distance_matrix stops j i) ∧
    (∀ i, calculate_distance_matrix stops i i = 0) ∧
    (∀ a b, haversine_km a b = haversine_km b a) ∧
    (∀ a, haversine_km a a = 0) := by
  refine ⟨fun i j => ?_, fun i => ?_, haversine_km_comm, haversine_km_self⟩
  · unfold calculate_distance_matrix
    rcases eq_or_ne i j with rfl | hij
    · simp
    · rw [if_neg hij, if_neg (Ne.symm hij), haversine_km_comm]
  · simp [calculate_distance_matrix]

/-- Python `int(...)` applied to a (idealized, exact) float: truncation toward 0. -/
def pyInt (q : ℚ) : ℤ :=
  if 0 ≤ q then ⌊q⌋ else ⌈q⌉

/-- Python `round(x, 2)`: round to two decimal places, ties to even. -/
def round2 (q : ℚ) : ℚ :=
  (if q * 100 - ⌊q * 100⌋ < 1 / 2 then (⌊q * 100⌋ : ℚ)
   else if 1 / 2 < q * 100 - ⌊q * 100⌋ then (⌊q * 100⌋ + 1 : ℚ)
   else if ⌊q * 100⌋ % 2 = 0 then (⌊q * 100⌋ : ℚ)
   else (⌊q * 100⌋ + 1 : ℚ)) / 100

theorem round2_int (n : ℤ) : round2 (n : ℚ) = (n : ℚ) := by
  have h : ((n : ℚ) * 100) = ((n * 100 : ℤ) : ℚ) := by push_cast; ring
  rw [round2, h, Int.floor_intCast]
  norm_num

/-- `RouteOptimizer._calculate_route_distance`: sum of the legs between
consecutive stops in the given order (an open path, no return leg); the
pairwise-distance function is abstracted as `d`. -/
def _calculate_route_distance {α : Type} (d : α → α → ℚ) : List α → ℚ
  | a :: b :: rest => d a b + _calculate_route_distance d (b :: rest)
  | _ => 0

/-- The arc list of the solver's closed tour as `_extract_solution` walks it:
consecutive pairs of the visiting order plus the final arc back to the depot
(node 0), which is where the routing model's end index maps. -/
def tourArcs (order : List ℕ) : List (ℕ × ℕ) :=
  order.zip (order.tail ++ [0])

/-- The raw (unrounded) distance accumulated by `_extract_solution`'s loop:
the sum of the distance-matrix entries over the closed tour's arcs. -/
def tourArcSum (d : ℕ → ℕ → ℚ) (order : List ℕ) : ℚ :=
  ((tourArcs order).map (fun p => d p.1 p.2)).sum

/-- `_extract_solution`'s `total_distance_km`: the arc sum rounded to 2 decimals. -/
def extract_total_distance_km (d : ℕ → ℕ → ℚ) (order : List ℕ) : ℚ :=
  round2 (tourArcSum d order)

/-- A distance matrix on two nodes at 1 km from each other, used as a concrete
instance below. -/
def twoNodeDist : ℕ → ℕ → ℚ :=
  fun i j => if i = j then 0 else 1

theorem tourArcSum_eq_open_plus_return (d : ℕ → ℕ → ℚ) :
    ∀ (order : List ℕ) (lastStop : ℕ), order.getLast? = some lastStop →
      tourArcSum d order = _calculate_route_distance d order + d lastStop 0
  | [], lastStop, h => by simp at h
  | [a], lastStop, h => by
      simp only [List.getLast?_singleton, Option.some.injEq] at h
      subst h
      simp [tourArcSum, tourArcs, _calculate_route_distance]
  | a :: b :: t, lastStop, h => by
      have ih := tourArcSum_eq_open_plus_return d (b :: t) lastStop
        (by simpa using h)
      have harc : tourArcs (a :: b :: t) = (a, b) :: tourArcs (b :: t) := by
        simp [tourArcs]
      have : tourArcSum d (a :: b :: t) = d a b + tourArcSum d (b :: t) := by
        simp [tourArcSum, harc]
      rw [this, ih]
      simp [_calculate_route_distance]
      ring

/-- C9: `_calculate_route_distance` is the open-path distance (the `n-1` legs
between consecutive stops, `0` for lists of length at most 1, no closing leg),
while `_extract_solution` sums the closed tour's arcs including the final
return arc to the depot; consequently `optimize_network`'s per-route distance
saved (open original minus closed optimized) can be negative, as on two stops
1 km apart. -/
theorem C9_open_path_vs_closed_tour :
    (∀ (α : Type) (d : α → α → ℚ) (stops : List α),
      stops.length ≤ 1 → _calculate_route_distance d stops = 0) ∧
    (∀ (d : ℕ → ℕ → ℚ) (order : List ℕ) (lastStop : ℕ),
      order.getLast? = some lastStop →
      tourArcSum d order = _calculate_route_distance d order + d lastStop 0) ∧
    _calculate_route_distance twoNodeDist [0, 1] -
      extract_total_distance_km twoNodeDist [0, 1] < 0 := by
  refine ⟨?_, tourArcSum_eq_open_plus_return, ?_⟩
  · intro α d stops h
    match stops, h with
    | [], _ => rfl
    | [a], _ => rfl
  · have h1 : _calculate_route_distance twoNodeDist [0, 1] = 1 := by
      norm_num [_calculate_route_distance, twoNodeDist]
    have h2 : tourArcSum twoNodeDist [0, 1] = 2 := by
      norm_num [tourArcSum, tourArcs, twoNodeDist]
    have h3 : extract_total_distance_km twoNodeDist [0, 1] = 2 := by
      rw [extract_total_distance_km, h2, show (2 : ℚ) = ((2 : ℤ) : ℚ) by norm_num,
        round2_int]
    rw [h1, h3]
    norm_num

/-- Witness for C9: the general conjuncts applied at concrete inputs. -/
theorem C9_open_path_vs_closed_tour_witness :
    _calculate_route_distance twoNodeDist [5] = 0 ∧
    tourArcSum twoNodeDist [0, 1] =
      _calculate_route_distance twoNodeDist [0, 1] + twoNodeDist 1 0 :=
  ⟨C9_open_path_vs_closed_tour.1 ℕ twoNodeDist [5] (by simp),
   C9_open_path_vs_closed_tour.2.1 twoNodeDist [0, 1] 1 (by simp)⟩

/-- One route's contribution to `optimize_network`'s aggregation loop: its
original (stop-order-as-given) distance and, when `optimize_route` solved it,
the solution's `total_distance_km`. -/
structure NetworkRouteOutcome where
  original_dist : ℚ
  optimized : Option ℚ
  deriving DecidableEq

/-- The accumulation loop of `optimize_network`: `original_total_distance` is
increased by every route's original distance, while `total_distance_saved` is
increased by `original - optimized` only for routes whose solve succeeded.
Returns `(total_distance_saved, original_total_distance)`. -/
def optimize_network_totals (routes : List NetworkRouteOutcome) : ℚ × ℚ :=
  routes.foldl
    (fun acc rt =>
      (match rt.optimized with
        | some opt => acc.1 + (rt.original_dist - opt)
        | none => acc.1,
       acc.2 + rt.original_dist))
    (0, 0)

/-- `optimize_network`'s `efficiency_improvement`:
`total_distance_saved / original_total_distance * 100` when the original total
is positive, else `0`. -/
def efficiency_improvement (routes : List NetworkRouteOutcome) : ℚ :=
  if 0 < (optimize_network_totals routes).2 then
    (optimize_network_totals routes).1 / (optimize_network_totals routes).2 * 100
  else 0

/-- The efficiency-improvement metric as the claim words it (routes that failed
to solve excluded from both the numerator and the denominator; `0` when that
denominator is `0`) — stated from the spec for comparison with
`efficiency_improvement`, which is the code's version. -/
def spec_efficiency_improvement (routes : List NetworkRouteOutcome) : ℚ :=
  let solved := routes.filter (fun rt => rt.optimized.isSome)
  let saved := (solved.map (fun rt => rt.original_dist - rt.optimized.getD 0)).sum
  let orig := (solved.map (fun rt => rt.original_dist)).sum
  if orig = 0 then 0 else saved / orig * 100

/-- Two routes of original distance 10 each; the first solves at distance 5,
the second fails to solve. -/
def C1cex : List NetworkRouteOutcome :=
  [⟨10, some 5⟩, ⟨10, none⟩]

theorem optimize_network_totals_foldl (routes : List NetworkRouteOutcome) :
    ∀ a b : ℚ,
      routes.foldl
        (fun acc rt =>
          (match rt.optimized with
            | some opt => acc.1 + (rt.original_dist - opt)
            | none => acc.1,
           acc.2 + rt.original_dist))
        (a, b) =
      (a + ((routes.filter (fun rt => rt.optimized.isSome)).map
              (fun rt => rt.original_dist - rt.optimized.getD 0)).sum,
       b + (routes.map (fun rt => rt.original_dist)).sum) := by
  induction routes with
  | nil => intro a b; simp
  | cons rt rest ih =>
      intro a b
      rcases hopt : rt.optimized with _ | opt
      · simp only [List.foldl_cons, hopt]
        rw [ih]
        simp [List.filter_cons, hopt, add_assoc]
      · simp only [List.foldl_cons, hopt]
        rw [ih]
        simp [List.filter_cons, hopt, add_assoc]

theorem optimize_network_totals_eq (routes : List NetworkRouteOutcome) :
    optimize_network_totals routes =
      (((routes.filter (fun rt => rt.optimized.isSome)).map
          (fun rt => rt.original_dist - rt.optimized.getD 0)).sum,
       (routes.map (fun rt => rt.original_dist)).sum) := by
  have h := optimize_network_totals_foldl routes 0 0
  simpa [optimize_network_totals] using h

/-- Counterexample to C1 as stated: with one solved route (10 km original,
5 km optimized) and one failed route (10 km original), the code's metric is
`5/20*100 = 25`, not the claimed `5/10*100 = 50` — the failed route's original
distance does count toward the denominator. -/
theorem C1_counterexample :
    efficiency_improvement C1cex = 25 ∧
    spec_efficiency_improvement C1cex = 50 ∧
    ¬ efficiency_improvement C1cex = spec_efficiency_improvement C1cex := by
  have h1 : efficiency_improvement C1cex = 25 := by
    rw [efficiency_improvement, optimize_network_totals_eq]
    norm_num [C1cex]
  have h2 : spec_efficiency_improvement C1cex = 50 := by
    norm_num [spec_efficiency_improvement, C1cex]
  refine ⟨h1, h2, ?_⟩
  rw [h1, h2]
  norm_num

/-- C1 (amended): for every input where at least one route fails to solve,
`efficiency_improvement` equals the sum over solved routes of
(original − optimized) divided by the sum over ALL routes of original distance,
times 100, and `0` when that denominator is not positive. -/
theorem C1_efficiency_denominator (routes : List NetworkRouteOutcome)
    (_hfail : ∃ rt ∈ routes, rt.optimized = none) :
    efficiency_improvement routes =
      if 0 < (routes.map (fun rt => rt.original_dist)).sum then
        ((routes.filter (fun rt => rt.optimized.isSome)).map
            (fun rt => rt.original_dist - rt.optimized.getD 0)).sum /
          (routes.map (fun rt => rt.original_dist)).sum * 100
      else 0 := by
  rw [efficiency_improvement, optimize_network_totals_eq]

/-- Witness for C1's amended theorem at the concrete two-route input. -/
theorem C1_efficiency_denominator_witness :
    (∃ rt ∈ C1cex, rt.optimized = none) ∧
    efficiency_improvement C1cex =
      if 0 < (C1cex.map (fun rt => rt.original_dist)).sum then
        ((C1cex.filter (fun rt => rt.optimized.isSome)).map
            (fun rt => rt.original_dist - rt.optimized.getD 0)).sum /
          (C1cex.map (fun rt => rt.original_dist)).sum * 100
      else 0 :=
  ⟨⟨⟨10, none⟩, by simp [C1cex], rfl⟩,
   C1_efficiency_denominator C1cex ⟨⟨10, none⟩, by simp [C1cex], rfl⟩⟩

/-- The data `optimize_route` hands to the OR-Tools routing model once the
stop list is nonempty: `n` stops (node 0 is the depot where the single vehicle
starts and ends), the pairwise distance matrix in km computed from the stops,
the index-aligned per-stop demands, the vehicle capacity, the maximum route
time in minutes, and the average speed used to convert distance to time. -/
structure VRPInput where
  n : ℕ
  dist : ℕ → ℕ → ℚ
  demands : ℕ → ℤ
  vehicle_capacity : ℤ
  max_route_time : ℤ
  average_speed_kmh : ℚ

/-- `time_callback`: travel time between two nodes in integer minutes,
`int((distance_km / average_speed_kmh) * 60)`. -/
def time_callback (inp : VRPInput) (i j : ℕ) : ℤ :=
  pyInt (inp.dist i j / inp.average_speed_kmh * 60)

/-- The capacity dimension's cumulative value when arriving at the `k`-th
position of the visiting order: the demands of the first `k` visited stops.
The dimension has zero slack and its start cumul is forced to zero, so this is
the only possible cumulative load. -/
def capCumul (inp : VRPInput) (order : List ℕ) (k : ℕ) : ℤ :=
  ((order.take k).map inp.demands).sum

/-- The time dimension's cumulative value at the `k`-th position of the tour
(position `order.length` is the route's end node, back at the depot): travel
times of the first `k` arcs plus the per-node slacks chosen by the solution.
The start cumul is forced to zero. -/
def timeCumul (inp : VRPInput) (order : List ℕ) (slacks : List ℤ) (k : ℕ) : ℤ :=
  (((tourArcs order).take k).map (fun p => time_callback inp p.1 p.2)).sum +
    (slacks.take k).sum

/-- The constraint model `optimize_route` builds: a single-vehicle tour
starting at the depot (node 0) and visiting every node exactly once, a
capacity dimension (zero slack, start cumul zero, cumuls within
`[0, vehicle_capacity]`), and a time dimension (slack up to 30 minutes per
node, start cumul zero, cumuls within `[0, max_route_time]` at every node
including the end node). -/
def FeasibleTour (inp : VRPInput) (order : List ℕ) (slacks : List ℤ) : Prop :=
  order.head? = some 0 ∧
  order.Perm (List.range inp.n) ∧
  slacks.length = order.length ∧
  (∀ s ∈ slacks, 0 ≤ s ∧ s ≤ 30) ∧
  (∀ k ∈ List.range (order.length + 1),
    (0 ≤ capCumul inp order k ∧ capCumul inp order k ≤ inp.vehicle_capacity) ∧
    (0 ≤ timeCumul inp order slacks k ∧
      timeCumul inp order slacks k ≤ inp.max_route_time))

/-- The dictionary `_extract_solution` builds from a solution. -/
structure RouteSolution where
  route_stops : List ℕ
  total_distance_km : ℚ
  total_time_minutes : ℤ
  deriving DecidableEq

/-- `RouteOptimizer._extract_solution`: walks the tour accumulating
distance-matrix entries (including the final arc back to the depot, where the
routing model's end index maps), rounds the distance to 2 decimals, and reads
the total time as the time dimension's cumulative value at the end node. -/
def _extract_solution (inp : VRPInput) (order : List ℕ) (slacks : List ℤ) :
    RouteSolution :=
  { route_stops := order
    total_distance_km := extract_total_distance_km inp.dist order
    total_time_minutes := timeCumul inp order slacks order.length }

/-- `RouteOptimizer.optimize_route` as a relation between its input and its
returned value. Modelled from the spec: the `SolveWithParameters` call is the
external OR-Tools solver, not in the sources; per the spec (§4.2) it returns a
solution satisfying the constraint model when one exists (the 30-second search
budget is idealized as sufficient) and reports "no solution" (`None`)
otherwise, rather than raising. The empty-stop-list guard returning `None`
before any model is built is the code's own first branch. Objective
minimality of the returned tour is not modelled (no claim depends on it). -/
inductive optimize_route (inp : VRPInput) : Option RouteSolution → Prop
  | empty : inp.n = 0 → optimize_route inp none
  | solved (order : List ℕ) (slacks : List ℤ) : inp.n ≠ 0 →
      FeasibleTour inp order slacks →
      optimize_route inp (some (_extract_solution inp order slacks))
  | infeasible : inp.n ≠ 0 →
      (∀ order slacks, ¬ FeasibleTour inp order slacks) →
      optimize_route inp none

theorem capCumul_full (inp : VRPInput) (order : List ℕ) :
    capCumul inp order order.length = (order.map inp.demands).sum := by
  rw [capCumul, List.take_length]

/-- If some stop's demand strictly exceeds the vehicle capacity and all
demands are non-negative, no tour can satisfy the capacity dimension. -/
theorem no_feasible_tour_of_overdemand (inp : VRPInput) (s : ℕ) (hs : s < inp.n)
    (hd : inp.vehicle_capacity < inp.demands s)
    (hnn : ∀ t, t < inp.n → 0 ≤ inp.demands t) :
    ∀ order slacks, ¬ FeasibleTour inp order slacks := by
  intro order slacks hfeas
  obtain ⟨-, hperm, -, -, hbounds⟩ := hfeas
  have hcap : capCumul inp order order.length ≤ inp.vehicle_capacity :=
    ((hbounds order.length (by simp)).1).2
  rw [capCumul_full] at hcap
  have hsum : (order.map inp.demands).sum = ((List.range inp.n).map inp.demands).sum :=
    (hperm.map inp.demands).sum_eq
  have hmem : inp.demands s ∈ (List.range inp.n).map inp.demands :=
    List.mem_map_of_mem inp.demands (List.mem_range.mpr hs)
  have hle : inp.demands s ≤ ((List.range inp.n).map inp.demands).sum := by
    refine List.single_le_sum ?_ _ hmem
    intro x hx
    obtain ⟨t, ht, rfl⟩ := List.mem_map.mp hx
    exact hnn t (List.mem_range.mp ht)
  omega

/-- C3: whenever `optimize_route` returns a solution, the underlying tour
visits every stop, the cumulative demand along every prefix of the tour stays
within the vehicle capacity (the capacity dimension has zero slack and starts
at zero), and the cumulative time at every node of the tour — including the
returned `total_time_minutes` at the end node — never exceeds
`max_route_time`. -/
theorem C3_solution_within_capacity_and_time (inp : VRPInput) (order : List ℕ)
    (slacks : List ℤ) (h : FeasibleTour inp order slacks) :
    (∀ s, s < inp.n → s ∈ order) ∧
    (∀ k, k ≤ order.length → capCumul inp order k ≤ inp.vehicle_capacity) ∧
    (∀ k, k ≤ order.length →
      timeCumul inp order slacks k ≤ inp.max_route_time) ∧
    (_extract_solution inp order slacks).total_time_minutes ≤
      inp.max_route_time := by
  obtain ⟨-, hperm, -, -, hbounds⟩ := h
  refine ⟨fun s hs => ?_, fun k hk => ?_, fun k hk => ?_, ?_⟩
  · exact hperm.mem_iff.mpr (List.mem_range.mpr hs)
  · exact ((hbounds k (List.mem_range.mpr (by omega))).1).2
  · exact ((hbounds k (List.mem_range.mpr (by omega))).2).2
  · exact ((hbounds order.length (List.mem_range.mpr (by omega))).2).2

/-- A two-stop route, stops 1 km apart, unit demands, generous limits. -/
def demoVRP : VRPInput :=
  { n := 2
    dist := twoNodeDist
    demands := fun _ => 1
    vehicle_capacity := 500
    max_route_time := 600
    average_speed_kmh := 30 }

theorem demoVRP_feasible : FeasibleTour demoVRP [0, 1] [0, 0] := by
  refine ⟨rfl, by decide, rfl, by decide, ?_⟩
  intro k hk
  simp only [List.mem_range, List.length_cons, List.length_nil] at hk
  norm_num at hk
  interval_cases k <;>
    norm_num [capCumul, timeCumul, tourArcs, time_callback, demoVRP,
      twoNodeDist, pyInt]

/-- Witness for C3 at the concrete two-stop input. -/
theorem C3_solution_within_capacity_and_time_witness :
    (∀ s, s < demoVRP.n → s ∈ [0, 1]) ∧
    (∀ k, k ≤ [0, 1].length →
      capCumul demoVRP [0, 1] k ≤ demoVRP.vehicle_capacity) ∧
    (∀ k, k ≤ [0, 1].length →
      timeCumul demoVRP [0, 1] [0, 0] k ≤ demoVRP.max_route_time) ∧
    (_extract_solution demoVRP [0, 1] [0, 0]).total_time_minutes ≤
      demoVRP.max_route_time :=
  C3_solution_within_capacity_and_time demoVRP [0, 1] [0, 0] demoVRP_feasible

/-- A one-stop route whose single demand (600) exceeds the capacity (500). -/
def overdemandVRP : VRPInput :=
  { n := 1
    dist := twoNodeDist
    demands := fun _ => 600
    vehicle_capacity := 500
    max_route_time := 600
    average_speed_kmh := 30 }

/-- C5: when some single stop's demand strictly exceeds the vehicle capacity
(and demands are non-negative, per the data-model invariant), the capacity
dimension makes every tour infeasible, and `optimize_route` reports this as
the `None` status value rather than raising. -/
theorem C5_demand_exceeding_capacity_unsolvable (inp : VRPInput) (s : ℕ)
    (hs : s < inp.n) (hd : inp.vehicle_capacity < inp.demands s)
    (hnn : ∀ t, t < inp.n → 0 ≤ inp.demands t) :
    (∀ order slacks, ¬ FeasibleTour inp order slacks) ∧
    (∀ res, optimize_route inp res → res = none) := by
  have hno := no_feasible_tour_of_overdemand inp s hs hd hnn
  refine ⟨hno, fun res hres => ?_⟩
  cases hres with
  | empty _ => rfl
  | solved order slacks _ hfeas => exact absurd hfeas (hno order slacks)
  | infeasible _ _ => rfl

/-- Witness for C5 at the concrete over-demand input. -/
theorem C5_demand_exceeding_capacity_unsolvable_witness :
    (∀ order slacks, ¬ FeasibleTour overdemandVRP order slacks) ∧
    (∀ res, optimize_route overdemandVRP res → res = none) :=
  C5_demand_exceeding_capacity_unsolvable overdemandVRP 0 (by decide)
    (by decide) (by intro t ht; norm_num [overdemandVRP])

/-- The empty stop list: `optimize_route`'s first branch returns `None` for it
before any model is built. -/
def emptyVRP : VRPInput :=
  { n := 0
    dist := fun _ _ => 0
    demands := fun _ => 0
    vehicle_capacity := 500
    max_route_time := 600
    average_speed_kmh := 30 }

/-- A single stop of demand 10, well within the default capacity of 500. -/
def singleStopVRP : VRPInput :=
  { n := 1
    dist := twoNodeDist
    demands := fun _ => 10
    vehicle_capacity := 500
    max_route_time := 600
    average_speed_kmh := 30 }

theorem round2_zero : round2 0 = 0 := by
  have h := round2_int 0
  simpa using h

/-- Counterexample to C6's "zero or one stop" half: on an empty stop list
`optimize_route` returns `None` — it does not yield a degenerate tour of
distance 0 (no `some` result is possible at all). -/
theorem C6_counterexample :
    optimize_route emptyVRP none ∧
    ¬ ∃ sol, optimize_route emptyVRP (some sol) := by
  refine ⟨optimize_route.empty rfl, ?_⟩
  rintro ⟨sol, hsol⟩
  cases hsol with
  | solved order slacks hne _ => exact hne rfl

/-- C6 (amended): a route of exactly one stop whose demand is at most the
vehicle capacity (with the data-model validity conditions: non-negative
demand, non-negative time budget, and the zero diagonal that
`calculate_distance_matrix` guarantees) is always solvable, and every possible
return of `optimize_route` is a solution of total distance 0; the trivial tour
itself is such a return. A route with zero stops, by contrast, is rejected
with `None` (see the counterexample). -/
theorem C6_single_stop_distance_zero (inp : VRPInput) (hn : inp.n = 1)
    (hdiag : inp.dist 0 0 = 0) (hd0 : 0 ≤ inp.demands 0)
    (hdc : inp.demands 0 ≤ inp.vehicle_capacity)
    (hmt : 0 ≤ inp.max_route_time) :
    optimize_route inp (some (_extract_solution inp [0] [0])) ∧
    (∀ res, optimize_route inp res →
      ∃ sol, res = some sol ∧ sol.total_distance_km = 0) := by
  have htc : time_callback inp 0 0 = 0 := by
    rw [time_callback, hdiag]
    norm_num [pyInt]
  have hfeas : FeasibleTour inp [0] [0] := by
    refine ⟨rfl, by rw [hn]; rfl, rfl, by simp, ?_⟩
    intro k hk
    simp only [List.mem_range, List.length_cons, List.length_nil] at hk
    norm_num at hk
    interval_cases k <;>
      simp [capCumul, timeCumul, tourArcs, htc] <;> omega
  have hdist : ∀ order slacks, FeasibleTour inp order slacks →
      (_extract_solution inp order slacks).total_distance_km = 0 := by
    intro order slacks hf
    obtain ⟨-, hperm, -, -, -⟩ := hf
    have horder : order = [0] := by
      rw [hn, show List.range 1 = [0] from rfl] at hperm
      exact List.perm_singleton.mp hperm
    subst horder
    simp [_extract_solution, extract_total_distance_km, tourArcSum, tourArcs,
      hdiag, round2_zero]
  refine ⟨optimize_route.solved [0] [0] (by omega) hfeas, fun res hres => ?_⟩
  cases hres with
  | empty h0 => omega
  | solved order slacks _ hf =>
      exact ⟨_, rfl, hdist order slacks hf⟩
  | infeasible _ hno => exact absurd hfeas (hno [0] [0])

/-- Witness for C6's amended theorem at the concrete single-stop input. -/
theorem C6_single_stop_distance_zero_witness :
    optimize_route singleStopVRP
      (some (_extract_solution singleStopVRP [0] [0])) ∧
    (∀ res, optimize_route singleStopVRP res →
      ∃ sol, res = some sol ∧ sol.total_distance_km = 0) :=
  C6_single_stop_distance_zero singleStopVRP rfl
    (by norm_num [singleStopVRP, twoNodeDist])
    (by norm_num [singleStopVRP]) (by norm_num [singleStopVRP])
    (by norm_num [singleStopVRP])

/-- Counterexample to C7: the empty stop list produces the very same outcome
value (`None`) that solver infeasibility produces (here, a one-stop route whose
demand 600 exceeds the capacity 500) — the caller cannot distinguish the two
by the returned value, so there is no distinct "invalid input" outcome. -/
theorem C7_counterexample :
    optimize_route emptyVRP none ∧
    optimize_route overdemandVRP none ∧
    ¬ ∃ sol, optimize_route emptyVRP (some sol) := by
  refine ⟨optimize_route.empty rfl, ?_, ?_⟩
  · refine optimize_route.infeasible (by norm_num [overdemandVRP]) ?_
    exact no_feasible_tour_of_overdemand overdemandVRP 0 (by decide)
      (by decide) (by intro t ht; norm_num [overdemandVRP])
  · rintro ⟨sol, hsol⟩
    cases hsol with
    | solved order slacks hne _ => exact hne rfl

/-- C7 (amended): an empty stop list is rejected before any model is built,
but the rejection value is the same `None` that "no solution" produces: `None`
is both a possible and the only possible return for an empty stop list. -/
theorem C7_empty_input_returns_none (inp : VRPInput) (h : inp.n = 0) :
    optimize_route inp none ∧
    (∀ res, optimize_route inp res → res = none) := by
  refine ⟨optimize_route.empty h, fun res hres => ?_⟩
  cases hres with
  | empty _ => rfl
  | solved order slacks hne _ => exact absurd h hne
  | infeasible _ _ => rfl

/-- Witness for C7's amended theorem at the concrete empty input. -/
theorem C7_empty_input_returns_none_witness :
    optimize_route emptyVRP none ∧
    (∀ res, optimize_route emptyVRP res → res = none) :=
  C7_empty_input_returns_none emptyVRP rfl

/-- The five time periods of `optimize_schedules`, in source order. -/
inductive TimePeriod
  | morning_peak
  | midday
  | afternoon_peak
  | evening
  | night
  deriving DecidableEq

/-- The `time_periods` list of `optimize_schedules`. -/
def time_periods : List TimePeriod :=
  [TimePeriod.morning_peak, TimePeriod.midday, TimePeriod.afternoon_peak,
   TimePeriod.evening, TimePeriod.night]

instance : Fintype TimePeriod :=
  ⟨⟨{TimePeriod.morning_peak, TimePeriod.midday, TimePeriod.afternoon_peak,
     TimePeriod.evening, TimePeriod.night}, by decide⟩, fun t => by cases t <;> decide⟩

/-- The fields of the `schedule_data` dictionary that `optimize_schedules`
reads: per (route, period) the per-stop demand pattern, per route the average
trip time in minutes, and the scalar capacity/headway parameters. -/
structure ScheduleData where
  nRoutes : ℕ
  demand_patterns : Fin nRoutes → TimePeriod → List ℤ
  avg_trip_time : Fin nRoutes → ℚ
  vehicle_capacity : ℤ
  min_headway : ℚ
  max_headway : ℚ

/-- `max(schedule_data['demand_patterns'][r][t].values())` — the period's peak
per-stop demand (with 0 for an empty pattern; the generator always produces at
least one stop, each of demand at least 1). -/
def max_demand (sd : ScheduleData) (r : Fin sd.nRoutes) (t : TimePeriod) : ℤ :=
  (sd.demand_patterns r t).foldr max 0

/-- `min_buses_needed = max(1, int(np.ceil(max_demand / capacity)))`; `int` of
an already-integral `np.ceil` value is the ceiling itself. -/
def min_buses_needed (sd : ScheduleData) (r : Fin sd.nRoutes) (t : TimePeriod) : ℤ :=
  max 1 ⌈(max_demand sd r t : ℚ) / (sd.vehicle_capacity : ℚ)⌉

/-- `min_buses_for_headway = max(1, int(np.ceil(avg_trip_time / max_headway)))`. -/
def min_buses_for_headway (sd : ScheduleData) (r : Fin sd.nRoutes) : ℤ :=
  max 1 ⌈sd.avg_trip_time r / sd.max_headway⌉

/-- `max_buses_for_headway = int(avg_trip_time / min_headway)` (Python `int`
truncation). -/
def max_buses_for_headway (sd : ScheduleData) (r : Fin sd.nRoutes) : ℤ :=
  pyInt (sd.avg_trip_time r / sd.min_headway)

/-- `max_fleet_size = 50`, hard-coded in `optimize_schedules`. -/
def max_fleet_size : ℤ := 50

/-- The LP objective's sum: total buses over all (route, period) cells. -/
def total_buses (sd : ScheduleData) (x : Fin sd.nRoutes → TimePeriod → ℤ) : ℤ :=
  ((List.finRange sd.nRoutes).map (fun r => (time_periods.map (x r)).sum)).sum

/-- The integer program `optimize_schedules` builds: each variable `x[r,t]` has
lower bound 1, the demand constraint `x[r,t] ≥ min_buses_needed`, the two
headway constraints, and the global fleet-size constraint. -/
def FeasibleSchedule (sd : ScheduleData) (x : Fin sd.nRoutes → TimePeriod → ℤ) : Prop :=
  (∀ (r : Fin sd.nRoutes) (t : TimePeriod),
    1 ≤ x r t ∧
    min_buses_needed sd r t ≤ x r t ∧
    min_buses_for_headway sd r ≤ x r t ∧
    x r t ≤ max_buses_for_headway sd r) ∧
  total_buses sd x ≤ max_fleet_size

/-- One `(route, period)` cell of the extracted `route_schedules`. -/
structure CellSchedule where
  buses : ℤ
  headway : ℚ
  capacity : ℤ
  max_demand : ℤ
  deriving DecidableEq

/-- The `route_schedules` dictionary built from an Optimal assignment: per cell
the bus count, the headway `avg_trip_time / buses`, the realized capacity
`buses * vehicle_capacity`, and the period's peak demand. (The code's
`float('inf')` headway branch for zero buses is unreachable: every variable has
lower bound 1.) -/
def route_schedules (sd : ScheduleData) (x : Fin sd.nRoutes → TimePeriod → ℤ)
    (r : Fin sd.nRoutes) (t : TimePeriod) : CellSchedule :=
  { buses := x r t
    headway := sd.avg_trip_time r / (x r t : ℚ)
    capacity := x r t * sd.vehicle_capacity
    max_demand := max_demand sd r t }

/-- The result status of the PuLP solve (`LpStatus[prob.status]`). -/
inductive LpStatusT
  | Optimal
  | Infeasible
  deriving DecidableEq

/-- `ScheduleOptimizer.optimize_schedules` as a relation between its input and
its returned status/schedules. Modelled from the spec: `prob.solve(PULP_CBC_CMD)`
is the external CBC MILP solver, not in the sources; per the spec (§4.3) it
returns status Optimal together with an assignment satisfying every constraint
when the program is feasible, and a non-Optimal (Infeasible) status with no
extracted schedules otherwise. Objective minimality of the Optimal assignment
is not modelled (no claim depends on it). -/
inductive optimize_schedules (sd : ScheduleData) :
    LpStatusT → Option ((r : Fin sd.nRoutes) → TimePeriod → CellSchedule) → Prop
  | optimal (x : Fin sd.nRoutes → TimePeriod → ℤ) (hx : FeasibleSchedule sd x) :
      optimize_schedules sd LpStatusT.Optimal (some (route_schedules sd x))
  | infeasible (h : ∀ x, ¬ FeasibleSchedule sd x) :
      optimize_schedules sd LpStatusT.Infeasible none

theorem max_demand_nonneg (sd : ScheduleData) (r : Fin sd.nRoutes)
    (t : TimePeriod) : 0 ≤ max_demand sd r t := by
  rw [max_demand]
  induction sd.demand_patterns r t with
  | nil => simp
  | cons a l ih => exact le_max_of_le_right ih

theorem pyInt_le_self_of_one_le (q : ℚ) (h : 1 ≤ pyInt q) : (pyInt q : ℚ) ≤ q := by
  by_cases hq : 0 ≤ q
  · rw [pyInt, if_pos hq]
    exact_mod_cast Int.floor_le q
  · exfalso
    rw [pyInt, if_neg hq] at h
    have h0 : (0 : ℤ) < ⌈q⌉ := by omega
    exact hq (le_of_lt (by exact_mod_cast Int.lt_ceil.mp h0))

/-- In any feasible schedule, each cell's realized capacity covers its peak
demand (needs a positive per-vehicle capacity). -/
theorem feasible_capacity_covers_demand (sd : ScheduleData)
    (hcap : 0 < sd.vehicle_capacity) (x : Fin sd.nRoutes → TimePeriod → ℤ)
    (hx : FeasibleSchedule sd x) :
    ∀ (r : Fin sd.nRoutes) (t : TimePeriod),
      max_demand sd r t ≤ x r t * sd.vehicle_capacity := by
  intro r t
  obtain ⟨hcells, -⟩ := hx
  obtain ⟨-, h2, -, -⟩ := hcells r t
  rw [min_buses_needed] at h2
  have hceil : (⌈(max_demand sd r t : ℚ) / (sd.vehicle_capacity : ℚ)⌉ : ℤ) ≤ x r t :=
    le_trans (le_max_right _ _) h2
  have hq : (max_demand sd r t : ℚ) / (sd.vehicle_capacity : ℚ) ≤ (x r t : ℚ) :=
    le_trans (Int.le_ceil _) (by exact_mod_cast hceil)
  have hcapQ : (0 : ℚ) < (sd.vehicle_capacity : ℚ) := by exact_mod_cast hcap
  have := (div_le_iff hcapQ).mp hq
  exact_mod_cast this

/-- C2: whenever `optimize_schedules` reports status Optimal, every cell of the
returned `route_schedules` has realized capacity (buses × vehicle_capacity) at
least the period's peak demand, a headway `avg_trip_time / buses` within
`[min_headway, max_headway]`, and the total bus count over all cells is within
the fleet cap. -/
theorem C2_optimal_schedule_meets_constraints (sd : ScheduleData)
    (hcap : 0 < sd.vehicle_capacity) (hminh : 0 < sd.min_headway)
    (hmaxh : 0 < sd.max_headway) (status : LpStatusT)
    (res : Option ((r : Fin sd.nRoutes) → TimePeriod → CellSchedule))
    (hrel : optimize_schedules sd status res)
    (hopt : status = LpStatusT.Optimal) :
    ∃ cells, res = some cells ∧
      (∀ (r : Fin sd.nRoutes) (t : TimePeriod),
        (cells r t).max_demand ≤ (cells r t).buses * sd.vehicle_capacity ∧
        sd.min_headway ≤ (cells r t).headway ∧
        (cells r t).headway ≤ sd.max_headway) ∧
      ((List.finRange sd.nRoutes).map
        (fun r => (time_periods.map (fun t => (cells r t).buses)).sum)).sum ≤
        max_fleet_size := by
  cases hrel with
  | infeasible h => exact LpStatusT.noConfusion hopt
  | optimal x hx =>
      refine ⟨route_schedules sd x, rfl, fun r t => ?_, ?_⟩
      · obtain ⟨h1, h2, h3, h4⟩ := hx.1 r t
        have hxpos : (0 : ℚ) < (x r t : ℚ) := by exact_mod_cast lt_of_lt_of_le one_pos h1
        refine ⟨feasible_capacity_covers_demand sd hcap x hx r t, ?_, ?_⟩
        · rw [min_buses_for_headway] at h3
          rw [max_buses_for_headway] at h4
          have hp : 1 ≤ pyInt (sd.avg_trip_time r / sd.min_headway) := le_trans h1 h4
          have hxq : (x r t : ℚ) ≤ sd.avg_trip_time r / sd.min_headway :=
            le_trans (by exact_mod_cast h4) (pyInt_le_self_of_one_le _ hp)
          have hmul := (le_div_iff hminh).mp hxq
          show sd.min_headway ≤ sd.avg_trip_time r / (x r t : ℚ)
          rw [le_div_iff hxpos]
          linarith
        · rw [min_buses_for_headway] at h3
          have hceil : (⌈sd.avg_trip_time r / sd.max_headway⌉ : ℤ) ≤ x r t :=
            le_trans (le_max_right _ _) h3
          have hxq : sd.avg_trip_time r / sd.max_headway ≤ (x r t : ℚ) :=
            le_trans (Int.le_ceil _) (by exact_mod_cast hceil)
          have hmul := (div_le_iff hmaxh).mp hxq
          show sd.avg_trip_time r / (x r t : ℚ) ≤ sd.max_headway
          rw [div_le_iff hxpos]
          linarith
      · simpa [route_schedules, total_buses] using hx.2

/-- A one-route input: one stop of demand 50, capacity 50, average trip time 30,
headway window [5, 30]. -/
def demoSched : ScheduleData :=
  { nRoutes := 1
    demand_patterns := fun _ _ => [50]
    avg_trip_time := fun _ => 30
    vehicle_capacity := 50
    min_headway := 5
    max_headway := 30 }

/-- Two buses on every (route, period) cell. -/
def demoAssign : Fin demoSched.nRoutes → TimePeriod → ℤ := fun _ _ => 2

theorem demoSched_feasible : FeasibleSchedule demoSched demoAssign := by
  have hc1 : (⌈((50 : ℤ) : ℚ) / ((50 : ℤ) : ℚ)⌉ : ℤ) = 1 := by norm_num
  have hc2 : (⌈(30 : ℚ) / 30⌉ : ℤ) = 1 := by norm_num
  refine ⟨fun r t => ?_, ?_⟩
  · refine ⟨by norm_num [demoAssign], ?_, ?_, ?_⟩
    · rw [min_buses_needed]
      have hmd : max_demand demoSched r t = 50 := by
        simp [max_demand, demoSched]
      rw [hmd]
      show max 1 ⌈((50 : ℤ) : ℚ) / (demoSched.vehicle_capacity : ℚ)⌉ ≤ demoAssign r t
      norm_num [demoSched, demoAssign]
    · rw [min_buses_for_headway]
      have hatt : demoSched.avg_trip_time r = 30 := rfl
      rw [hatt]
      show max 1 ⌈(30 : ℚ) / demoSched.max_headway⌉ ≤ demoAssign r t
      norm_num [demoSched, demoAssign]
    · rw [max_buses_for_headway]
      have hatt : demoSched.avg_trip_time r = 30 := rfl
      rw [hatt]
      show demoAssign r t ≤ pyInt ((30 : ℚ) / demoSched.min_headway)
      norm_num [demoSched, demoAssign, pyInt]
  · show total_buses demoSched demoAssign ≤ max_fleet_size
    decide

/-- Witness for C2 at the concrete one-route input. -/
theorem C2_optimal_schedule_meets_constraints_witness :
    ∃ cells,
      some (route_schedules demoSched demoAssign) = some cells ∧
      (∀ (r : Fin demoSched.nRoutes) (t : TimePeriod),
        (cells r t).max_demand ≤ (cells r t).buses * demoSched.vehicle_capacity ∧
        demoSched.min_headway ≤ (cells r t).headway ∧
        (cells r t).headway ≤ demoSched.max_headway) ∧
      ((List.finRange demoSched.nRoutes).map
        (fun r => (time_periods.map (fun t => (cells r t).buses)).sum)).sum ≤
        max_fleet_size :=
  C2_optimal_schedule_meets_constraints demoSched (by norm_num [demoSched])
    (by norm_num [demoSched]) (by norm_num [demoSched]) LpStatusT.Optimal
    (some (route_schedules demoSched demoAssign))
    (optimize_schedules.optimal demoAssign demoSched_feasible) rfl

/-- A cell's minimum vehicle floor: the larger of the demand floor
`max(1, ceil(peak_demand / capacity))` and the headway floor
`max(1, ceil(avg_trip_time / max_headway))`. Every feasible assignment is at
least this on every cell. -/
def min_vehicle_floor (sd : ScheduleData) (r : Fin sd.nRoutes) (t : TimePeriod) : ℤ :=
  max (min_buses_needed sd r t) (min_buses_for_headway sd r)

/-- The sum of the per-cell minimum vehicle floors over all (route, period). -/
def min_floor_sum (sd : ScheduleData) : ℤ :=
  ((List.finRange sd.nRoutes).map
    (fun r => (time_periods.map (fun t => min_vehicle_floor sd r t)).sum)).sum

/-- C4: when the fleet cap is strictly below the sum of the per-cell minimum
vehicle floors, no assignment is feasible, and `optimize_schedules` reports
the Infeasible (non-Optimal) status with no schedules rather than any
assignment. -/
theorem C4_fleet_cap_below_floors_infeasible (sd : ScheduleData)
    (hcap : max_fleet_size < min_floor_sum sd) :
    (∀ x, ¬ FeasibleSchedule sd x) ∧
    (∀ status res, optimize_schedules sd status res →
      status = LpStatusT.Infeasible ∧ res = none) := by
  have hno : ∀ x, ¬ FeasibleSchedule sd x := by
    rintro x ⟨hcells, hfleet⟩
    have hsum : min_floor_sum sd ≤ total_buses sd x := by
      rw [min_floor_sum, total_buses]
      refine List.sum_le_sum fun r _ => ?_
      refine List.sum_le_sum fun t _ => ?_
      obtain ⟨-, h2, h3, -⟩ := hcells r t
      exact max_le h2 h3
    omega
  refine ⟨hno, fun status res hrel => ?_⟩
  cases hrel with
  | optimal x hx => exact absurd hx (hno x)
  | infeasible h => exact ⟨rfl, rfl⟩

/-- One route with average trip time 330 and max headway 30: each of the five
periods needs at least ⌈330/30⌉ = 11 buses, so at least 55 in total — above
the fleet cap of 50. -/
def infeasSched : ScheduleData :=
  { nRoutes := 1
    demand_patterns := fun _ _ => [50]
    avg_trip_time := fun _ => 330
    vehicle_capacity := 50
    min_headway := 5
    max_headway := 30 }

theorem infeasSched_floor_sum : min_floor_sum infeasSched = 55 := by
  have hfloor : ∀ (r : Fin infeasSched.nRoutes) (t : TimePeriod),
      min_vehicle_floor infeasSched r t = 11 := by
    intro r t
    have hmd : max_demand infeasSched r t = 50 := by
      simp [max_demand, infeasSched]
    have h1 : min_buses_needed infeasSched r t = 1 := by
      rw [min_buses_needed, hmd]
      show max 1 ⌈((50 : ℤ) : ℚ) / (infeasSched.vehicle_capacity : ℚ)⌉ = 1
      norm_num [infeasSched]
    have h2 : min_buses_for_headway infeasSched r = 11 := by
      rw [min_buses_for_headway]
      have hatt : infeasSched.avg_trip_time r = 330 := rfl
      rw [hatt]
      show max 1 ⌈(330 : ℚ) / infeasSched.max_headway⌉ = 11
      have hc : (⌈(330 : ℚ) / 30⌉ : ℤ) = 11 := by norm_num
      simp [infeasSched, hc]
    rw [min_vehicle_floor, h1, h2]
    norm_num
  rw [min_floor_sum]
  have : ∀ r ∈ List.finRange infeasSched.nRoutes,
      (time_periods.map (fun t => min_vehicle_floor infeasSched r t)).sum = 55 := by
    intro r _
    rw [show time_periods.map (fun t => min_vehicle_floor infeasSched r t) =
      [min_vehicle_floor infeasSched r TimePeriod.morning_peak,
       min_vehicle_floor infeasSched r TimePeriod.midday,
       min_vehicle_floor infeasSched r TimePeriod.afternoon_peak,
       min_vehicle_floor infeasSched r TimePeriod.evening,
       min_vehicle_floor infeasSched r TimePeriod.night] from rfl]
    simp [hfloor]
  rw [List.map_congr_left this]
  rfl

/-- Witness for C4 at the concrete over-committed input. -/
theorem C4_fleet_cap_below_floors_infeasible_witness :
    (∀ x, ¬ FeasibleSchedule infeasSched x) ∧
    (∀ status res, optimize_schedules infeasSched status res →
      status = LpStatusT.Infeasible ∧ res = none) :=
  C4_fleet_cap_below_floors_infeasible infeasSched
    (by rw [infeasSched_floor_sum]; norm_num [max_fleet_size])

/-- `ScheduleOptimizer._calculate_utilization_rate`: total peak demand over
total realized capacity, as a percentage, summed over every (route, period)
cell of the extracted schedules; `0` when the total capacity is not positive. -/
def _calculate_utilization_rate (sd : ScheduleData)
    (cells : Fin sd.nRoutes → TimePeriod → CellSchedule) : ℚ :=
  if 0 < ((List.finRange sd.nRoutes).map
      (fun r => (time_periods.map (fun t => (cells r t).capacity)).sum)).sum then
    ((((List.finRange sd.nRoutes).map
        (fun r => (time_periods.map (fun t => (cells r t).max_demand)).sum)).sum : ℚ) /
      (((List.finRange sd.nRoutes).map
        (fun r => (time_periods.map (fun t => (cells r t).capacity)).sum)).sum : ℚ)) * 100
  else 0

/-- C10: for every Optimal `optimize_schedules` result, the utilization rate
lies in [0, 100]: the demand-satisfaction constraints make each cell's summed
demand at most its summed capacity. -/
theorem C10_utilization_rate_in_unit_range (sd : ScheduleData)
    (hcap : 0 < sd.vehicle_capacity) (status : LpStatusT)
    (res : Option ((r : Fin sd.nRoutes) → TimePeriod → CellSchedule))
    (hrel : optimize_schedules sd status res)
    (hopt : status = LpStatusT.Optimal) :
    ∃ cells, res = some cells ∧
      0 ≤ _calculate_utilization_rate sd cells ∧
      _calculate_utilization_rate sd cells ≤ 100 := by
  cases hrel with
  | infeasible h => exact LpStatusT.noConfusion hopt
  | optimal x hx =>
      refine ⟨route_schedules sd x, rfl, ?_⟩
      have hdemand : ∀ (r : Fin sd.nRoutes) (t : TimePeriod),
          (route_schedules sd x r t).max_demand ≤ (route_schedules sd x r t).capacity :=
        fun r t => feasible_capacity_covers_demand sd hcap x hx r t
      have hdnn : ∀ (r : Fin sd.nRoutes) (t : TimePeriod),
          0 ≤ (route_schedules sd x r t).max_demand :=
        fun r t => max_demand_nonneg sd r t
      set TD := ((List.finRange sd.nRoutes).map
        (fun r => (time_periods.map
          (fun t => (route_schedules sd x r t).max_demand)).sum)).sum with hTD
      set TC := ((List.finRange sd.nRoutes).map
        (fun r => (time_periods.map
          (fun t => (route_schedules sd x r t).capacity)).sum)).sum with hTC
      have hTDnn : 0 ≤ TD := by
        rw [hTD]
        refine List.sum_nonneg fun a ha => ?_
        obtain ⟨r, -, rfl⟩ := List.mem_map.mp ha
        refine List.sum_nonneg fun b hb => ?_
        obtain ⟨t, -, rfl⟩ := List.mem_map.mp hb
        exact hdnn r t
      have hTDTC : TD ≤ TC := by
        rw [hTD, hTC]
        refine List.sum_le_sum fun r _ => ?_
        exact List.sum_le_sum fun t _ => hdemand r t
      rw [_calculate_utilization_rate]
      by_cases hpos : 0 < TC
      · rw [if_pos hpos]
        have hTCq : (0 : ℚ) < (TC : ℚ) := by exact_mod_cast hpos
        constructor
        · have h0 : (0 : ℚ) ≤ (TD : ℚ) / (TC : ℚ) :=
            div_nonneg (by exact_mod_cast hTDnn) hTCq.le
          linarith
        · have h1 : (TD : ℚ) / (TC : ℚ) ≤ 1 :=
            (div_le_one hTCq).mpr (by exact_mod_cast hTDTC)
          linarith
      · rw [if_neg hpos]
        norm_num

/-- Witness for C10 at the concrete one-route input. -/
theorem C10_utilization_rate_in_unit_range_witness :
    ∃ cells,
      some (route_schedules demoSched demoAssign) = some cells ∧
      0 ≤ _calculate_utilization_rate demoSched cells ∧
      _calculate_utilization_rate demoSched cells ≤ 100 :=
  C10_utilization_rate_in_unit_range demoSched (by norm_num [demoSched])
    LpStatusT.Optimal (some (route_schedules demoSched demoAssign))
    (optimize_schedules.optimal demoAssign demoSched_feasible) rfl

end MLTransportAccra
